import Mathlib

/-!
Verification of the audio-streaming client of the Shoppers Concierge frontend
(`LiveChat.tsx`: class `AudioClient` and component `LiveChat`, plus the
`useWebSocket` hook).  The TypeScript code is shallowly embedded: byte buffers
are `List Nat` (each element < 256), base64 text is `List Char`, and the
stateful client is a step function over explicit state records.
-/

namespace ShoppersConcierge

/-- The base64 alphabet used by the browser's `btoa` / `atob`. -/
def b64Alphabet : List Char :=
  ['A', 'B', 'C', 'D', 'E', 'F', 'G', 'H', 'I', 'J', 'K', 'L', 'M',
   'N', 'O', 'P', 'Q', 'R', 'S', 'T', 'U', 'V', 'W', 'X', 'Y', 'Z',
   'a', 'b', 'c', 'd', 'e', 'f', 'g', 'h', 'i', 'j', 'k', 'l', 'm',
   'n', 'o', 'p', 'q', 'r', 's', 't', 'u', 'v', 'w', 'x', 'y', 'z',
   '0', '1', '2', '3', '4', '5', '6', '7', '8', '9', '+', '/']

/-- Character for a 6-bit group (0 ≤ n < 64). -/
def b64Char (n : Nat) : Char := b64Alphabet.getD n 'A'

/-- Index of a character in the base64 alphabet (`atob`'s reverse lookup). -/
def b64Index (c : Char) : Nat := b64Alphabet.findIdx (fun x => x == c)

/-- `_arrayBufferToBase64` composed with the browser's `btoa`: the source
builds a binary string with one char per byte (`String.fromCharCode`) and
base64-encodes it.  We model the composition directly on the byte list,
three bytes at a time with `=` padding. -/
def btoa : List Nat → List Char
  | [] => []
  | [b1] => [b64Char (b1 / 4), b64Char (b1 % 4 * 16), '=', '=']
  | [b1, b2] =>
      [b64Char (b1 / 4), b64Char (b1 % 4 * 16 + b2 / 16), b64Char (b2 % 16 * 4), '=']
  | b1 :: b2 :: b3 :: rest =>
      b64Char (b1 / 4) :: b64Char (b1 % 4 * 16 + b2 / 16) ::
      b64Char (b2 % 16 * 4 + b3 / 64) :: b64Char (b3 % 64) :: btoa rest

/-- `_base64ToArrayBuffer` composed with the browser's `atob`: decodes four
base64 characters (with `=` padding at the end) into three bytes, then reads
each char code into the byte array (`charCodeAt`). -/
def atob : List Char → List Nat
  | c1 :: c2 :: c3 :: c4 :: rest =>
      if c3 = '=' then
        [b64Index c1 * 4 + b64Index c2 / 16]
      else if c4 = '=' then
        [b64Index c1 * 4 + b64Index c2 / 16,
         b64Index c2 % 16 * 16 + b64Index c3 / 4]
      else
        (b64Index c1 * 4 + b64Index c2 / 16) ::
        (b64Index c2 % 16 * 16 + b64Index c3 / 4) ::
        (b64Index c3 % 4 * 64 + b64Index c4) :: atob rest
  | _ => []

/-- `AudioClient._arrayBufferToBase64` on the byte contents of the buffer. -/
def _arrayBufferToBase64 (buffer : List Nat) : List Char := btoa buffer

/-- `AudioClient._base64ToArrayBuffer`, yielding the byte contents. -/
def _base64ToArrayBuffer (base64 : List Char) : List Nat := atob base64

/-- The bytes of an `Int16Array` buffer viewed as a `Uint8Array`
(little-endian two's complement), as in `new Uint8Array(int16Data.buffer)`. -/
def int16ToBytes : List Int → List Nat
  | [] => []
  | s :: rest => (s % 65536).toNat % 256 :: (s % 65536).toNat / 256 :: int16ToBytes rest

/-- Reading a byte buffer as an `Int16Array` (little-endian two's
complement), as in `new Int16Array(audioData)` in `playNextInQueue`. -/
def bytesToInt16 : List Nat → List Int
  | lo :: hi :: rest =>
      (if lo + hi * 256 < 32768 then (lo + hi * 256 : Int)
       else (lo + hi * 256 : Int) - 65536) :: bytesToInt16 rest
  | _ => []

/-- A decoded audio buffer: the byte contents of an `ArrayBuffer`. -/
abbrev Buf := List Nat

/-- The playback-relevant state of an `AudioClient`.  `started` (the buffers
handed to a buffer source and started, in order) and `received` (the decoded
buffers that entered `playAudio`, in order) are history variables; the code
fields are `audioQueue`, `isPlaying` and the nullable `audioContext`
(represented by `hasAudioContext`).  `activeSources` counts buffer sources
that have been started and whose `onended` has not fired yet. -/
structure PlayerState where
  audioQueue : List Buf
  isPlaying : Bool
  hasAudioContext : Bool
  activeSources : Nat
  started : List Buf
  received : List Buf
deriving DecidableEq, Repr

/-- `AudioClient.playNextInQueue`: bail out (clearing `isPlaying`) when the
queue is empty or no `audioContext` exists; otherwise set `isPlaying`, shift
the head buffer off the queue, and start a source playing it. -/
def playNextInQueue (s : PlayerState) : PlayerState :=
  match s.audioQueue, s.hasAudioContext with
  | [], _ => { s with isPlaying := false }
  | _ :: _, false => { s with isPlaying := false }
  | buf :: rest, true =>
      { s with isPlaying := true, audioQueue := rest,
               started := s.started ++ [buf], activeSources := s.activeSources + 1 }

/-- `AudioClient.playAudio`: decode the base64 payload, push the buffer on
the tail of `audioQueue`, and start draining only if nothing is playing. -/
def playAudio (base64Audio : List Char) (s : PlayerState) : PlayerState :=
  let audioData := _base64ToArrayBuffer base64Audio
  let s1 := { s with audioQueue := s.audioQueue ++ [audioData],
                     received := s.received ++ [audioData] }
  if s1.isPlaying then s1 else playNextInQueue s1

/-- The `source.onended` handler: the finished source is retired, then
`isPlaying` is cleared and `playNextInQueue` runs.  With no active source the
event cannot fire, so the state is returned unchanged. -/
def onEnded (s : PlayerState) : PlayerState :=
  match s.activeSources with
  | 0 => s
  | n + 1 => playNextInQueue { s with activeSources := n, isPlaying := false }

/-- Events driving the playback state: an inbound `audio` message (its base64
payload), completion of the currently playing source, and creation of the
`AudioContext` (done lazily by `initializeAudio`). -/
inductive PlayerEv
  | recvAudio (base64 : List Char)
  | ended
  | initAudioCtx
deriving DecidableEq, Repr

def playerStep (s : PlayerState) : PlayerEv → PlayerState
  | .recvAudio b => playAudio b s
  | .ended => onEnded s
  | .initAudioCtx => { s with hasAudioContext := true }

/-- The state of a freshly constructed `AudioClient`. -/
def initPlayer : PlayerState :=
  { audioQueue := [], isPlaying := false, hasAudioContext := false,
    activeSources := 0, started := [], received := [] }

def playerRun (s : PlayerState) (evs : List PlayerEv) : PlayerState :=
  evs.foldl playerStep s

/-- A product record as rendered by the frontend. -/
structure Product where
  name : String
  description : Option String
  img_url : String
deriving DecidableEq, Repr

/-- The JSON value found in an inbound message's `data` field. -/
inductive Jv
  | jstr (s : List Char)
  | jarr (ps : List Product)
  | jnull
deriving DecidableEq, Repr

/-- String payload of a `data` field (inbound `audio` payloads are strings). -/
def Jv.asStr : Jv → List Char
  | .jstr s => s
  | _ => []

/-- One frame delivered to `ws.onmessage`: either its payload is rejected by
`JSON.parse` (malformed), or it parses to an object with a `type` tag and a
`data` value. -/
inductive RawMsg
  | malformed (raw : List Char)
  | tagged (msgType : String) (data : Jv)
deriving DecidableEq, Repr

/-- Callback invocations observable by the presentation layer. -/
inductive Cb
  | audioReceived (data : Jv)
  | textReceived (data : Jv) (isUser : Bool)
  | productsReceived (data : Jv)
  | logReceived (data : Jv)
  | turnComplete
  | botSpeechStart
  | botSpeechEnd
deriving DecidableEq, Repr

/-- The body of `ws.onmessage` in `AudioClient.connect`.  `JSON.parse` is
called with no surrounding try/catch, so a malformed payload throws (an
`Except.error`).  A parsed message is routed by its `type` through the
switch; the `audio` case also enqueues via `playAudio`; a `type` matching no
case falls through the switch and nothing happens. -/
def onmessage (s : PlayerState) : RawMsg → Except String (PlayerState × List Cb)
  | .malformed _ => .error "SyntaxError: JSON.parse"
  | .tagged t d =>
      .ok <|
        if t = "audio" then (playAudio d.asStr s, [.audioReceived d])
        else if t = "text" then (s, [.textReceived d false])
        else if t = "user_text" then (s, [.textReceived d true])
        else if t = "products" then (s, [.productsReceived d])
        else if t = "log" then (s, [.logReceived d])
        else if t = "turn_complete" then (s, [.turnComplete])
        else if t = "bot_speech_start" then (s, [.botSpeechStart])
        else if t = "bot_speech_end" then (s, [.botSpeechEnd])
        else (s, [])

/-- Delivery of a sequence of socket frames.  Each frame is dispatched in its
own event-loop task, so an exception escaping one `onmessage` invocation is
reported as uncaught (counted in the third component) and does not prevent
later frames from being dispatched.  Returns the final client state, the
concatenated callback invocations, and the number of uncaught exceptions. -/
def dispatchAll : PlayerState → List RawMsg → PlayerState × List Cb × Nat
  | s, [] => (s, [], 0)
  | s, m :: rest =>
      match onmessage s m with
      | .error _ =>
          ((dispatchAll s rest).1, (dispatchAll s rest).2.1, (dispatchAll s rest).2.2 + 1)
      | .ok (s1, cbs1) =>
          ((dispatchAll s1 rest).1, cbs1 ++ (dispatchAll s1 rest).2.1,
           (dispatchAll s1 rest).2.2)

/-- An outbound JSON frame `{ type, data }`. -/
structure OutboundMsg where
  msgType : String
  data : List Char
deriving DecidableEq, Repr

/-- The flags read by the capture callback in `initializeAudio`. -/
structure CaptureState where
  isRecording : Bool
  isConnected : Bool
  wsPresent : Bool
deriving DecidableEq, Repr

/-- Per-sample conversion `Math.max(-32768, Math.min(32767, x))` where `x`
stands for `Math.floor(inputData[i] * 32768)`; the callback receives the
already-floored integer values since the embedding does not model floats. -/
def clampInt16 (n : Int) : Int := max (-32768) (min 32767 n)

/-- The `processor.onaudioprocess` handler: returns immediately while not
recording; otherwise converts the frame to int16 and — only if connected with
a socket present — base64-encodes the bytes and sends one `audio` message.
Result: (state after the callback, messages sent, onError invocations).  The
handler assigns no field of the client, so the state is always returned
unchanged; there is no outbound buffer anywhere in the class. -/
def onaudioprocess (s : CaptureState) (frame : List Int) :
    CaptureState × List OutboundMsg × List String :=
  if !s.isRecording then (s, [], [])
  else
    let int16Data := frame.map clampInt16
    if s.isConnected && s.wsPresent then
      (s, [{ msgType := "audio",
             data := _arrayBufferToBase64 (int16ToBytes int16Data) }], [])
    else (s, [], [])

/-- State of the `useWebSocket` hook: the readyState of the socket held in
`webSocketRef.current` (none when the ref is null) and the `logs` array. -/
structure HookState where
  wsReadyState : Option Nat
  logs : List String
deriving DecidableEq, Repr

/-- `useWebSocket`'s `sendMessage`: sends only when the ref holds a socket in
readyState OPEN (= 1); otherwise it calls `console.error` and appends the
diagnostic `"WebSocket is not connected"` to `logs`, dropping the message.
Result: (hook state, messages actually sent). -/
def sendMessage (s : HookState) (msg : String) : HookState × List String :=
  match s.wsReadyState with
  | some rs =>
      if rs = 1 then (s, [msg])
      else ({ s with logs := s.logs ++ ["WebSocket is not connected"] }, [])
  | none => ({ s with logs := s.logs ++ ["WebSocket is not connected"] }, [])

/-- The capture graph held in `this.recorder`: the microphone track's
liveness (`MediaStreamTrack` live/ended) and the two node connections. -/
structure Recorder where
  trackLive : Bool
  sourceConnected : Bool
  processorConnected : Bool
deriving DecidableEq, Repr

/-- A WebSocket, identified by its readyState
(0 CONNECTING, 1 OPEN, 2 CLOSING, 3 CLOSED). -/
structure WsConn where
  readyState : Nat
deriving DecidableEq, Repr

/-- The resource-holding fields of an `AudioClient`, with history counters
for the effectful releases: `trackStops` counts live→ended track transitions
(`track.stop()` on an ended track is a no-op), `wsCloses` counts close
initiations (`ws.close()` on a CLOSING/CLOSED socket is a no-op). -/
structure ClientState where
  isRecording : Bool
  recorder : Option Recorder
  ws : Option WsConn
  trackStops : Nat
  wsCloses : Nat
deriving DecidableEq, Repr

/-- `AudioClient.close`: clear `isRecording`; if a recorder exists, stop its
stream's tracks and disconnect both nodes; if a socket exists, close it.
None of the involved browser calls can throw, so the embedding is total. -/
def close (s : ClientState) : ClientState :=
  let s1 : ClientState := { s with isRecording := false }
  let s2 : ClientState :=
    match s1.recorder with
    | none => s1
    | some r =>
        { s1 with
          recorder := some { trackLive := false, sourceConnected := false,
                             processorConnected := false },
          trackStops := s1.trackStops + (if r.trackLive then 1 else 0) }
  match s2.ws with
  | none => s2
  | some w =>
      if 2 ≤ w.readyState then s2
      else { s2 with ws := some { readyState := 2 }, wsCloses := s2.wsCloses + 1 }

/-- Message author, as stored by the `LiveChat` component. -/
inductive Sender
  | user
  | bot
deriving DecidableEq, Repr

/-- One chat bubble. -/
structure ChatMsg where
  text : String
  sender : Sender
deriving DecidableEq, Repr

/-- The presentation state of `LiveChat`: the `messages` array, the
`products` array, and the `isBotSpeaking` ref. -/
structure LCState where
  messages : List ChatMsg
  products : List Product
  isBotSpeaking : Bool
deriving DecidableEq, Repr

/-- `LiveChat`'s `onBotSpeechStart` handler: set the speaking flag and push
an empty bot bubble. -/
def onBotSpeechStart (s : LCState) : LCState :=
  { s with isBotSpeaking := true,
           messages := s.messages ++ [{ text := "", sender := Sender.bot }] }

/-- `LiveChat`'s `onTextReceived` handler: user text appends to a trailing
user bubble, otherwise starts a new user bubble; bot text appends to a
trailing bot bubble while `isBotSpeaking` holds, otherwise starts a new bot
bubble.  Appending overwrites the last array slot with the extended text. -/
def onTextReceived (s : LCState) (text : String) (isUser : Bool) : LCState :=
  match s.messages.getLast? with
  | some lm =>
      if isUser then
        if lm.sender = Sender.user then
          { s with messages := s.messages.set (s.messages.length - 1)
                     { text := lm.text ++ text, sender := lm.sender } }
        else { s with messages := s.messages ++ [{ text := text, sender := Sender.user }] }
      else
        if s.isBotSpeaking ∧ lm.sender = Sender.bot then
          { s with messages := s.messages.set (s.messages.length - 1)
                     { text := lm.text ++ text, sender := lm.sender } }
        else { s with messages := s.messages ++ [{ text := text, sender := Sender.bot }] }
  | none =>
      if isUser then { s with messages := s.messages ++ [{ text := text, sender := Sender.user }] }
      else { s with messages := s.messages ++ [{ text := text, sender := Sender.bot }] }

/-- `LiveChat`'s `onBotSpeechEnd` handler: clear the speaking flag. -/
def onBotSpeechEnd (s : LCState) : LCState := { s with isBotSpeaking := false }

/-- `LiveChat`'s `onProductsReceived` handler: `setProducts(newProducts || [])`
— a full replacement of the displayed set; only a null/undefined payload is
replaced by the empty array. -/
def onProductsReceived (s : LCState) (newProducts : Option (List Product)) : LCState :=
  { s with products := newProducts.getD [] }

/-- Callback deliveries to the `LiveChat` presentation layer. -/
inductive LCEv
  | botSpeechStart
  | botSpeechEnd
  | textReceived (text : String) (isUser : Bool)
  | productsReceived (newProducts : Option (List Product))
deriving DecidableEq, Repr

def lcStep (s : LCState) : LCEv → LCState
  | .botSpeechStart => onBotSpeechStart s
  | .botSpeechEnd => onBotSpeechEnd s
  | .textReceived t u => onTextReceived s t u
  | .productsReceived ps => onProductsReceived s ps

def lcRun (s : LCState) (evs : List LCEv) : LCState := evs.foldl lcStep s

/-- Settlement state of the promise returned by `AudioClient.connect`. -/
inductive PromiseState
  | pending
  | resolved
  | rejected
deriving DecidableEq, Repr

/-- The observable effects of the handlers wired up inside `connect`:
the promise handle, `isConnected`, and the numbers of `onReady`/`onError`
callback invocations. -/
structure ConnectState where
  promise : PromiseState
  isConnected : Bool
  readyCbs : Nat
  errorCbs : Nat
deriving DecidableEq, Repr

/-- WebSocket lifecycle events delivered to the handlers installed by
`connect`. -/
inductive WsEv
  | wsOpen
  | wsError
  | wsClose
  | wsMessage (m : RawMsg)
deriving DecidableEq, Repr

/-- The handlers installed by `connect`: `onopen` sets `isConnected`, fires
`onReady` and resolves the promise (settling is one-shot); `onerror` only
logs and fires `onError` — the `reject` handle is never referenced anywhere
in the executor; `onclose` only clears `isConnected`; `onmessage` dispatch is
modelled separately and does not touch the promise. -/
def connectStep (s : ConnectState) : WsEv → ConnectState
  | .wsOpen =>
      { s with isConnected := true, readyCbs := s.readyCbs + 1,
               promise := if s.promise = PromiseState.pending
                          then PromiseState.resolved else s.promise }
  | .wsError => { s with errorCbs := s.errorCbs + 1 }
  | .wsClose => { s with isConnected := false }
  | .wsMessage _ => s

/-- State right after `connect()` is entered: the promise is pending. -/
def initConnect : ConnectState :=
  { promise := PromiseState.pending, isConnected := false, readyCbs := 0, errorCbs := 0 }

def connectRun (evs : List WsEv) : ConnectState := evs.foldl connectStep initConnect

/-- A `.catch` handler attached to the `connect()` promise runs exactly when
the promise is rejected. -/
def catchRuns (s : ConnectState) : Bool := s.promise = PromiseState.rejected

end ShoppersConcierge

namespace ShoppersConcierge

/-- Reverse lookup inverts the alphabet on every 6-bit value. -/
theorem b64Index_b64Char : ∀ n : Nat, n < 64 → b64Index (b64Char n) = n := by decide

/-- No alphabet character is the padding character. -/
theorem b64Char_ne_pad : ∀ n : Nat, n < 64 → b64Char n ≠ '=' := by decide

/-- Induction principle following `btoa`'s three-byte grouping. -/
theorem threeStepInduction (P : List Nat → Prop) (h0 : P []) (h1 : ∀ a, P [a])
    (h2 : ∀ a b, P [a, b]) (h3 : ∀ a b c l, P l → P (a :: b :: c :: l)) :
    ∀ l, P l
  | [] => h0
  | [a] => h1 a
  | [a, b] => h2 a b
  | a :: b :: c :: l => h3 a b c l (threeStepInduction P h0 h1 h2 h3 l)

/-- Decoding inverts encoding on byte lists. -/
theorem atob_btoa (bs : List Nat) (h : ∀ b ∈ bs, b < 256) : atob (btoa bs) = bs := by
  induction bs using threeStepInduction with
  | h0 => rfl
  | h1 a =>
      have ha : a < 256 := h a (by simp)
      have h4 : a / 4 < 64 := by omega
      have h16 : a % 4 * 16 < 64 := by omega
      simp only [btoa, atob, if_pos rfl, if_true]
      rw [b64Index_b64Char _ h4, b64Index_b64Char _ h16]
      simp only [List.cons.injEq, and_true]
      omega
  | h2 a b =>
      have ha : a < 256 := h a (by simp)
      have hb : b < 256 := h b (by simp)
      have h1' : a / 4 < 64 := by omega
      have h2' : a % 4 * 16 + b / 16 < 64 := by omega
      have h3' : b % 16 * 4 < 64 := by omega
      simp only [btoa, atob, if_true]
      rw [if_neg (b64Char_ne_pad _ h3')]
      rw [b64Index_b64Char _ h1', b64Index_b64Char _ h2', b64Index_b64Char _ h3']
      simp only [List.cons.injEq, and_true]
      omega
  | h3 a b c l ih =>
      have ha : a < 256 := h a (by simp)
      have hb : b < 256 := h b (by simp)
      have hc : c < 256 := h c (by simp)
      have h1' : a / 4 < 64 := by omega
      have h2' : a % 4 * 16 + b / 16 < 64 := by omega
      have h3' : b % 16 * 4 + c / 64 < 64 := by omega
      have h4' : c % 64 < 64 := by omega
      have hrest : ∀ x ∈ l, x < 256 := fun x hx => h x (by simp [hx])
      simp only [btoa, atob]
      rw [if_neg (b64Char_ne_pad _ h3'), if_neg (b64Char_ne_pad _ h4')]
      rw [b64Index_b64Char _ h1', b64Index_b64Char _ h2', b64Index_b64Char _ h3',
        b64Index_b64Char _ h4', ih hrest]
      simp only [List.cons.injEq, and_true]
      omega

/-- Every byte of the `Int16Array` view is a byte. -/
theorem int16ToBytes_lt (ss : List Int) : ∀ b ∈ int16ToBytes ss, b < 256 := by
  induction ss with
  | nil => simp [int16ToBytes]
  | cons s rest ih =>
      intro b hb
      simp only [int16ToBytes, List.mem_cons] at hb
      rcases hb with h1 | h2 | h3
      · omega
      · have : (s % 65536).toNat < 65536 := by omega
        omega
      · exact ih b h3

/-- Reading back the byte view recovers every in-range sample. -/
theorem bytesToInt16_int16ToBytes (ss : List Int)
    (h : ∀ s ∈ ss, -32768 ≤ s ∧ s < 32768) :
    bytesToInt16 (int16ToBytes ss) = ss := by
  induction ss with
  | nil => rfl
  | cons s rest ih =>
      have hs := h s (by simp)
      have hrest : ∀ x ∈ rest, -32768 ≤ x ∧ x < 32768 := fun x hx => h x (by simp [hx])
      simp only [int16ToBytes, bytesToInt16, ih hrest, List.cons.injEq, and_true]
      omega

/-- C8: the transport encoding is a lossless round-trip — for every block of
int16 samples, encoding the underlying bytes with `_arrayBufferToBase64` and
decoding with `_base64ToArrayBuffer` returns a byte buffer equal to the
original, so the int16 samples are recovered exactly. -/
theorem base64_transport_roundtrip (samples : List Int)
    (h : ∀ s ∈ samples, -32768 ≤ s ∧ s < 32768) :
    _base64ToArrayBuffer (_arrayBufferToBase64 (int16ToBytes samples))
      = int16ToBytes samples ∧
    bytesToInt16 (_base64ToArrayBuffer (_arrayBufferToBase64 (int16ToBytes samples)))
      = samples := by
  have hb := atob_btoa (int16ToBytes samples) (int16ToBytes_lt samples)
  refine ⟨hb, ?_⟩
  simp only [_base64ToArrayBuffer, _arrayBufferToBase64] at hb ⊢
  rw [hb]
  exact bytesToInt16_int16ToBytes samples h

/-- Witness for C8 on a concrete block of samples covering zero, positive,
negative, and both int16 extremes. -/
theorem base64_transport_roundtrip_witness :
    (∀ s ∈ ([0, 1, -1, 32767, -32768] : List Int), -32768 ≤ s ∧ s < 32768) ∧
    (_base64ToArrayBuffer (_arrayBufferToBase64
        (int16ToBytes [0, 1, -1, 32767, -32768]))
      = int16ToBytes [0, 1, -1, 32767, -32768] ∧
    bytesToInt16 (_base64ToArrayBuffer (_arrayBufferToBase64
        (int16ToBytes [0, 1, -1, 32767, -32768])))
      = [0, 1, -1, 32767, -32768]) :=
  ⟨by decide, base64_transport_roundtrip [0, 1, -1, 32767, -32768] (by decide)⟩

/-- One step of the playback system preserves the queue-decomposition and
the active-source invariant. -/
theorem playerStep_inv (s : PlayerState) (e : PlayerEv)
    (h1 : s.received = s.started ++ s.audioQueue)
    (h2 : s.activeSources = if s.isPlaying then 1 else 0) :
    (playerStep s e).received = (playerStep s e).started ++ (playerStep s e).audioQueue ∧
    (playerStep s e).activeSources = if (playerStep s e).isPlaying then 1 else 0 := by
  obtain ⟨q, p, ctx, act, st, rc⟩ := s
  simp only at h1 h2
  cases e with
  | initAudioCtx =>
      simpa [playerStep] using And.intro h1 h2
  | recvAudio b =>
      cases p with
      | true =>
          simp_all [playerStep, playAudio, List.append_assoc]
      | false =>
          cases q with
          | nil =>
              cases ctx <;> simp_all [playerStep, playAudio, playNextInQueue]
          | cons q0 qs =>
              cases ctx <;>
                simp_all [playerStep, playAudio, playNextInQueue, List.append_assoc]
  | ended =>
      cases act with
      | zero =>
          cases p <;> simp_all [playerStep, onEnded]
      | succ n =>
          cases p with
          | false => simp at h2
          | true =>
              cases q with
              | nil =>
                  cases ctx <;> simp_all [playerStep, onEnded, playNextInQueue]
              | cons q0 qs =>
                  cases ctx <;>
                    simp_all [playerStep, onEnded, playNextInQueue, List.append_assoc]

/-- The invariant holds after any run from an invariant state. -/
theorem playerRun_inv (evs : List PlayerEv) : ∀ s : PlayerState,
    s.received = s.started ++ s.audioQueue →
    s.activeSources = (if s.isPlaying then 1 else 0) →
    (playerRun s evs).received = (playerRun s evs).started ++ (playerRun s evs).audioQueue ∧
    (playerRun s evs).activeSources = if (playerRun s evs).isPlaying then 1 else 0 := by
  induction evs with
  | nil => intro s h1 h2; exact ⟨h1, h2⟩
  | cons e evs ih =>
      intro s h1 h2
      have hstep := playerStep_inv s e h1 h2
      simpa [playerRun] using ih (playerStep s e) hstep.1 hstep.2

/-- C1: For every sequence of inbound `audio` messages delivered to the
AudioClient, the sequence of buffers played back (via `playAudio` enqueueing
to `audioQueue` and `playNextInQueue` dequeuing) is exactly the sequence
received, in receipt order (FIFO): at every point the buffers whose playback
has started, followed by the still-queued buffers, are exactly the received
buffers in order, so each played buffer comes from the head of the queue and
no buffer is played before an earlier-received one. -/
theorem audio_playback_fifo (evs : List PlayerEv) :
    (playerRun initPlayer evs).started ++ (playerRun initPlayer evs).audioQueue
      = (playerRun initPlayer evs).received ∧
    ∃ pending, (playerRun initPlayer evs).received
      = (playerRun initPlayer evs).started ++ pending := by
  have h := playerRun_inv evs initPlayer rfl rfl
  exact ⟨h.1.symm, (playerRun initPlayer evs).audioQueue, h.1⟩

/-- C2: In every reachable state of an AudioClient session at most one
buffer source is in flight (`activeSources ≤ 1`, gated by `isPlaying`), and
calling `playAudio` while `isPlaying` is true starts nothing: it only
appends the decoded buffer to the tail of `audioQueue`. -/
theorem single_playback_gate (evs : List PlayerEv) (s : PlayerState) (b : List Char) :
    (playerRun initPlayer evs).activeSources ≤ 1 ∧
    (s.isPlaying = true →
      playAudio b s = { s with
        audioQueue := s.audioQueue ++ [_base64ToArrayBuffer b],
        received := s.received ++ [_base64ToArrayBuffer b] }) := by
  constructor
  · have h := (playerRun_inv evs initPlayer rfl rfl).2
    rw [h]
    split <;> omega
  · intro hp
    simp [playAudio, hp]

/-- Witness for C2 at concrete inputs: the empty run has at most one active
source, and `playAudio` on a playing state with payload `"AAA="`  (decoding
to bytes `[0, 0]`) only enqueues. -/
theorem single_playback_gate_witness :
    (playerRun initPlayer []).activeSources ≤ 1 ∧
    playAudio ['A', 'A', 'A', '=']
        { audioQueue := [], isPlaying := true, hasAudioContext := true,
          activeSources := 1, started := [], received := [] }
      = { audioQueue := [[0, 0]], isPlaying := true, hasAudioContext := true,
          activeSources := 1, started := [], received := [[0, 0]] } :=
  ⟨(single_playback_gate [] initPlayer []).1,
   (single_playback_gate []
      { audioQueue := [], isPlaying := true, hasAudioContext := true,
        activeSources := 1, started := [], received := [] }
      ['A', 'A', 'A', '=']).2 rfl⟩

/-- C3 counterexample: a malformed inbound frame is not logged-and-ignored —
`JSON.parse` throws out of `ws.onmessage` (there is no try/catch and no
logging in the handler), so the dispatch of `"{"` raises. -/
theorem malformed_message_raises :
    onmessage initPlayer (RawMsg.malformed ['{'])
      = Except.error "SyntaxError: JSON.parse" := rfl

/-- C3 (amended): a malformed inbound frame makes `JSON.parse` throw out of
the `onmessage` handler (one uncaught exception, no log, no callback); the
session state is unchanged and every subsequent message is dispatched exactly
as if the malformed frame had not arrived; an inbound message with an unknown
`type` is ignored without raising: no callback fires and the state is
unchanged. -/
theorem malformed_skipped_dispatch_continues (s : PlayerState) (raw : List Char)
    (rest : List RawMsg) (t : String) (d : Jv)
    (ha : t ≠ "audio") (ht : t ≠ "text") (hu : t ≠ "user_text")
    (hp : t ≠ "products") (hl : t ≠ "log") (hc : t ≠ "turn_complete")
    (hb : t ≠ "bot_speech_start") (he : t ≠ "bot_speech_end") :
    dispatchAll s (RawMsg.malformed raw :: rest)
      = ((dispatchAll s rest).1, (dispatchAll s rest).2.1,
         (dispatchAll s rest).2.2 + 1) ∧
    onmessage s (RawMsg.tagged t d) = Except.ok (s, []) := by
  constructor
  · simp [dispatchAll, onmessage]
  · simp [onmessage, ha, ht, hu, hp, hl, hc, hb, he]

/-- Witness for the amended C3 at concrete inputs: a malformed frame
followed by a valid `text` frame, and an unknown type `"bogus"`. -/
theorem malformed_skipped_dispatch_continues_witness :
    dispatchAll initPlayer
        (RawMsg.malformed ['{'] :: [RawMsg.tagged "text" (Jv.jstr ['h', 'i'])])
      = ((dispatchAll initPlayer [RawMsg.tagged "text" (Jv.jstr ['h', 'i'])]).1,
         (dispatchAll initPlayer [RawMsg.tagged "text" (Jv.jstr ['h', 'i'])]).2.1,
         (dispatchAll initPlayer [RawMsg.tagged "text" (Jv.jstr ['h', 'i'])]).2.2 + 1) ∧
    onmessage initPlayer (RawMsg.tagged "bogus" Jv.jnull)
      = Except.ok (initPlayer, []) :=
  malformed_skipped_dispatch_continues initPlayer ['{']
    [RawMsg.tagged "text" (Jv.jstr ['h', 'i'])] "bogus" Jv.jnull
    (by decide) (by decide) (by decide) (by decide)
    (by decide) (by decide) (by decide) (by decide)

/-- C4: `close()` is safe and idempotent: a second `close` changes nothing
(in particular no release effect happens twice), on a client with no capture
graph and no socket it is a no-op, a live microphone track is stopped
exactly once, a not-yet-closing socket is closed exactly once, and recording
always ends.  The embedding is a total function: none of the underlying
browser calls (`track.stop`, `disconnect`, `ws.close`) can throw. -/
theorem close_idempotent_and_safe :
    (∀ s : ClientState, close (close s) = close s) ∧
    (∀ s : ClientState, s.isRecording = false → s.recorder = none → s.ws = none →
      close s = s) ∧
    (∀ (s : ClientState) (r : Recorder), s.recorder = some r → r.trackLive = true →
      (close s).trackStops = s.trackStops + 1) ∧
    (∀ (s : ClientState) (w : WsConn), s.ws = some w → w.readyState < 2 →
      (close s).wsCloses = s.wsCloses + 1) ∧
    (∀ s : ClientState, (close s).isRecording = false) := by
  refine ⟨?_, ?_, ?_, ?_, ?_⟩
  · intro s
    obtain ⟨rec, r, w, ts, wc⟩ := s
    cases r with
    | none =>
        cases w with
        | none => simp [close]
        | some w0 =>
            by_cases hw : 2 ≤ w0.readyState <;> simp [close, hw]
    | some r0 =>
        cases w with
        | none => simp [close]
        | some w0 =>
            by_cases hw : 2 ≤ w0.readyState <;> simp [close, hw]
  · intro s h1 h2 h3
    obtain ⟨rec, r, w, ts, wc⟩ := s
    simp only at h1 h2 h3
    subst h1 h2 h3
    simp [close]
  · intro s r hr hl
    obtain ⟨rec, r?, w, ts, wc⟩ := s
    simp only at hr
    subst hr
    cases w with
    | none => simp [close, hl]
    | some w0 =>
        by_cases hw : 2 ≤ w0.readyState <;> simp [close, hl, hw]
  · intro s w hw hrs
    obtain ⟨rec, r, w?, ts, wc⟩ := s
    simp only at hw
    subst hw
    have h2 : ¬ 2 ≤ w.readyState := by omega
    cases r with
    | none => simp [close, h2]
    | some r0 => simp [close, h2]
  · intro s
    obtain ⟨rec, r, w, ts, wc⟩ := s
    cases r with
    | none =>
        cases w with
        | none => simp [close]
        | some w0 => by_cases hw : 2 ≤ w0.readyState <;> simp [close, hw]
    | some r0 =>
        cases w with
        | none => simp [close]
        | some w0 => by_cases hw : 2 ≤ w0.readyState <;> simp [close, hw]

/-- Witness for C4 at concrete inputs: double close on a fully established
client, a no-op close on a never-connected client, one track stop, one
socket close, and cleared recording flag. -/
theorem close_idempotent_and_safe_witness :
    close (close { isRecording := true,
                   recorder := some { trackLive := true, sourceConnected := true,
                                      processorConnected := true },
                   ws := some { readyState := 1 }, trackStops := 0, wsCloses := 0 })
      = close { isRecording := true,
                recorder := some { trackLive := true, sourceConnected := true,
                                   processorConnected := true },
                ws := some { readyState := 1 }, trackStops := 0, wsCloses := 0 } ∧
    close { isRecording := false, recorder := none, ws := none,
            trackStops := 0, wsCloses := 0 }
      = { isRecording := false, recorder := none, ws := none,
          trackStops := 0, wsCloses := 0 } ∧
    (close { isRecording := true,
             recorder := some { trackLive := true, sourceConnected := true,
                                processorConnected := true },
             ws := some { readyState := 1 }, trackStops := 0,
             wsCloses := 0 }).trackStops = 0 + 1 ∧
    (close { isRecording := true,
             recorder := some { trackLive := true, sourceConnected := true,
                                processorConnected := true },
             ws := some { readyState := 1 }, trackStops := 0,
             wsCloses := 0 }).wsCloses = 0 + 1 ∧
    (close { isRecording := true,
             recorder := some { trackLive := true, sourceConnected := true,
                                processorConnected := true },
             ws := some { readyState := 1 }, trackStops := 0,
             wsCloses := 0 }).isRecording = false :=
  ⟨close_idempotent_and_safe.1 _,
   close_idempotent_and_safe.2.1 _ rfl rfl rfl,
   close_idempotent_and_safe.2.2.1 _ _ rfl rfl,
   close_idempotent_and_safe.2.2.2.1 _ _ rfl (by decide),
   close_idempotent_and_safe.2.2.2.2 _⟩

/-- C5 counterexample: a capture callback firing while the session is not
connected signals nothing — the frame is dropped with no outbound message,
no buffering, and crucially an empty list of `onError` invocations, so the
registered error callback is not invoked. -/
theorem frame_while_disconnected_is_silent :
    onaudioprocess { isRecording := true, isConnected := false, wsPresent := false } [0]
      = ({ isRecording := true, isConnected := false, wsPresent := false }, [], []) := rfl

/-- C5 (amended): an outbound audio frame produced while the session is not
connected is silently dropped by the AudioClient — nothing is sent, nothing
is queued (the callback leaves the state unchanged and the class has no
outbound buffer), and no error event is signalled.  The separate
`useWebSocket` hook, by contrast, does emit a diagnostic: its `sendMessage`
while the socket is not OPEN drops the message and appends
`"WebSocket is not connected"` to the log. -/
theorem send_while_disconnected_drops (s : CaptureState) (frame : List Int)
    (hs : HookState) (m : String) (hc : s.isConnected = false)
    (hw : ∀ rs, hs.wsReadyState = some rs → rs ≠ 1) :
    onaudioprocess s frame = (s, [], []) ∧
    sendMessage hs m
      = ({ hs with logs := hs.logs ++ ["WebSocket is not connected"] }, []) := by
  constructor
  · cases hr : s.isRecording <;> simp [onaudioprocess, hr, hc]
  · cases hov : hs.wsReadyState with
    | none => simp [sendMessage, hov]
    | some rs => simp [sendMessage, hov, hw rs hov]

/-- Witness for the amended C5 at concrete inputs: a disconnected recording
client dropping the frame `[1000]` silently, and the hook logging on a
CONNECTING socket. -/
theorem send_while_disconnected_drops_witness :
    onaudioprocess { isRecording := true, isConnected := false, wsPresent := true } [1000]
      = ({ isRecording := true, isConnected := false, wsPresent := true }, [], []) ∧
    sendMessage { wsReadyState := some 0, logs := [] } "hello"
      = ({ wsReadyState := some 0, logs := ["WebSocket is not connected"] }, []) :=
  send_while_disconnected_drops
    { isRecording := true, isConnected := false, wsPresent := true } [1000]
    { wsReadyState := some 0, logs := [] } "hello" rfl
    (fun rs h => by simp at h; omega)

/-- C7: a capture callback invocation while `isRecording` is false sends no
outbound `audio` message and does not buffer the frame (the state is
unchanged and nothing is emitted); conversely any invocation that does send
a message must have run with `isRecording` true. -/
theorem frames_dropped_when_not_recording (s : CaptureState) (frame : List Int)
    (h : s.isRecording = false) :
    onaudioprocess s frame = (s, [], []) ∧
    (∀ (s' : CaptureState) (fr : List Int),
      (onaudioprocess s' fr).2.1 ≠ [] → s'.isRecording = true) := by
  constructor
  · simp [onaudioprocess, h]
  · intro s' fr hne
    by_contra hrec
    have h' : s'.isRecording = false := by
      cases hx : s'.isRecording
      · rfl
      · exact absurd hx hrec
    simp [onaudioprocess, h'] at hne

/-- Witness for C7 at concrete inputs: a connected but non-recording client
drops the frame `[5]`, and the implication holds on a sending invocation. -/
theorem frames_dropped_when_not_recording_witness :
    onaudioprocess { isRecording := false, isConnected := true, wsPresent := true } [5]
      = ({ isRecording := false, isConnected := true, wsPresent := true }, [], []) ∧
    (∀ (s' : CaptureState) (fr : List Int),
      (onaudioprocess s' fr).2.1 ≠ [] → s'.isRecording = true) :=
  frames_dropped_when_not_recording
    { isRecording := false, isConnected := true, wsPresent := true } [5] rfl

/-- C6: a `products` message fully replaces the displayed set — after `P1`
then `P2` the state holds exactly `P2` (and nothing else changed). -/
theorem products_fully_replace (s : LCState) (P1 P2 : List Product) :
    onProductsReceived (onProductsReceived s (some P1)) (some P2)
      = { s with products := P2 } ∧
    (onProductsReceived (onProductsReceived s (some P1)) (some P2)).products = P2 :=
  ⟨rfl, rfl⟩

/-- The last element of a list ending in `[a]`. -/
theorem getLast?_append_one {α : Type} (l : List α) (a : α) :
    (l ++ [a]).getLast? = some a := by
  induction l with
  | nil => rfl
  | cons x t ih =>
      cases t with
      | nil => rfl
      | cons y ys => simpa [List.getLast?_cons_cons] using ih

/-- Overwriting the slot holding the last element of `l ++ [a]`. -/
theorem set_append_one {α : Type} (l : List α) (a v : α) :
    (l ++ [a]).set l.length v = l ++ [v] := by
  induction l with
  | nil => rfl
  | cons x t ih => simp [List.set, ih]

/-- While the bot is speaking, bot text extends the trailing bot bubble in
place. -/
theorem onTextReceived_bot_extend (s : LCState) (pre : List ChatMsg)
    (old txt : String)
    (hm : s.messages = pre ++ [{ text := old, sender := Sender.bot }])
    (hb : s.isBotSpeaking = true) :
    onTextReceived s txt false
      = { s with messages := pre ++ [{ text := old ++ txt, sender := Sender.bot }] } := by
  unfold onTextReceived
  rw [hm, getLast?_append_one]
  have hlen : (pre ++ [({ text := old, sender := Sender.bot } : ChatMsg)]).length - 1
      = pre.length := by
    simp
  simp only [hb, Bool.false_eq_true, if_false, and_true, if_true, true_and, hlen,
    set_append_one, if_pos]

/-- C9: delivering `bot_speech_start`, `text:"Hello "`, `text:"world"`,
`bot_speech_end` to the `LiveChat` presentation state appends exactly one
new bot message with text `"Hello world"` — the two text increments are
accumulated into a single bubble — and leaves the speaking flag cleared. -/
theorem bot_utterance_single_bubble (s : LCState) :
    (lcRun s [LCEv.botSpeechStart, LCEv.textReceived "Hello " false,
              LCEv.textReceived "world" false, LCEv.botSpeechEnd]).messages
      = s.messages ++ [{ text := "Hello world", sender := Sender.bot }] ∧
    (lcRun s [LCEv.botSpeechStart, LCEv.textReceived "Hello " false,
              LCEv.textReceived "world" false, LCEv.botSpeechEnd]).isBotSpeaking
      = false := by
  simp only [lcRun, List.foldl_cons, List.foldl_nil, lcStep]
  rw [show onBotSpeechStart s
        = { s with isBotSpeaking := true,
                   messages := s.messages ++ [{ text := "", sender := Sender.bot }] }
      from rfl]
  rw [onTextReceived_bot_extend _ s.messages "" "Hello " rfl rfl]
  rw [onTextReceived_bot_extend _ s.messages "Hello " "world" rfl rfl]
  exact ⟨rfl, rfl⟩

/-- A step never rejects the `connect()` promise. -/
theorem connectStep_promise_ne (s : ConnectState) (e : WsEv)
    (h : s.promise ≠ PromiseState.rejected) :
    (connectStep s e).promise ≠ PromiseState.rejected := by
  cases e with
  | wsOpen =>
      simp only [connectStep]
      split <;> simp_all
  | wsError => exact h
  | wsClose => exact h
  | wsMessage m => exact h

/-- Fold facts about the handlers wired in `connect`: the promise is never
rejected, is untouched by non-open events, and `onError` fires once per
error event. -/
theorem connectFold_facts (evs : List WsEv) : ∀ s : ConnectState,
    (s.promise ≠ PromiseState.rejected →
      (evs.foldl connectStep s).promise ≠ PromiseState.rejected) ∧
    (WsEv.wsOpen ∉ evs → (evs.foldl connectStep s).promise = s.promise) ∧
    (evs.foldl connectStep s).errorCbs
      = s.errorCbs + evs.countP (fun e => decide (e = WsEv.wsError)) := by
  induction evs with
  | nil => intro s; simp
  | cons e evs ih =>
      intro s
      refine ⟨?_, ?_, ?_⟩
      · intro h
        simpa [List.foldl_cons] using (ih (connectStep s e)).1 (connectStep_promise_ne s e h)
      · intro hno
        have hne : e ≠ WsEv.wsOpen := fun he => hno (by simp [he])
        have hnot : WsEv.wsOpen ∉ evs := fun hm => hno (by simp [hm])
        have hpe : (connectStep s e).promise = s.promise := by
          cases e with
          | wsOpen => exact absurd rfl hne
          | wsError => rfl
          | wsClose => rfl
          | wsMessage m => rfl
        simpa [List.foldl_cons, hpe] using (ih (connectStep s e)).2.1 hnot
      · have hec : (connectStep s e).errorCbs
            = s.errorCbs + (if e = WsEv.wsError then 1 else 0) := by
          cases e <;> simp [connectStep]
        simp only [List.foldl_cons, (ih (connectStep s e)).2.2, hec, List.countP_cons]
        split <;> simp_all
        omega

/-- C10 (implicit): the promise returned by `AudioClient.connect` settles
only when the socket opens; the `reject` handle is never invoked, so after
any event sequence the promise is not rejected and an attached `.catch`
handler never runs; without an open event the promise stays pending forever;
connection errors only fire the `onError` callback (once per error event). -/
theorem connect_promise_never_rejected (evs : List WsEv) :
    (connectRun evs).promise ≠ PromiseState.rejected ∧
    catchRuns (connectRun evs) = false ∧
    (connectRun evs).errorCbs = evs.countP (fun e => decide (e = WsEv.wsError)) ∧
    (WsEv.wsOpen ∉ evs → (connectRun evs).promise = PromiseState.pending) := by
  have h := connectFold_facts evs initConnect
  have h1 : (connectRun evs).promise ≠ PromiseState.rejected := h.1 (by simp [initConnect])
  refine ⟨h1, ?_, ?_, ?_⟩
  · simp only [catchRuns, decide_eq_false_iff_not]
    exact h1
  · simpa [initConnect, connectRun] using h.2.2
  · intro hno
    simpa [initConnect, connectRun] using h.2.1 hno

/-- Witness for C10 at a concrete failing connection attempt (an error event
followed by remote close, no open): pending promise, no rejection, no
`.catch` run, one `onError` invocation. -/
theorem connect_promise_never_rejected_witness :
    (connectRun [WsEv.wsError, WsEv.wsClose]).promise ≠ PromiseState.rejected ∧
    catchRuns (connectRun [WsEv.wsError, WsEv.wsClose]) = false ∧
    (connectRun [WsEv.wsError, WsEv.wsClose]).errorCbs
      = [WsEv.wsError, WsEv.wsClose].countP (fun e => decide (e = WsEv.wsError)) ∧
    (connectRun [WsEv.wsError, WsEv.wsClose]).promise = PromiseState.pending :=
  have h := connect_promise_never_rejected [WsEv.wsError, WsEv.wsClose]
  ⟨h.1, h.2.1, h.2.2.1, h.2.2.2 (by decide)⟩

end ShoppersConcierge
